import Mathlib

/-!
# Verification of the RIFE-Interpolator job orchestration core

Shallow embedding of `src/src-tauri/src/main.rs` (the only source file of the
repository).  External effects — the filesystem, subprocess spawning, process
exit statuses, subprocess output streams, the throttling clock — are modelled
as explicit environment records passed to the embedded functions; the pure
computations (string parsing, percentage arithmetic, path resolution logic,
event sequencing of each background task) are translated directly from the
Rust source.  Machine floats (`f64`) are modelled as rationals `ℚ`: every
claim proved here concerns formulas (doubling, clamping to bands, division by
estimated totals) whose verdicts are insensitive to rounding, and the concrete
constants involved (`2.0`, `33.0`, `100.0`, `99.9`, `24.0`, `48.0`) are exact
in both representations.
-/

namespace RIFE

/-- `x.max(lo).min(hi)` on Rust floats (`main.rs:1005`): clamp `x` into `[lo, hi]`. -/
def clampQ (x lo hi : ℚ) : ℚ := min (max x lo) hi

/-!
Strings are manipulated through their character lists so that every
definition is executable by the kernel; each helper models the Rust string
primitive named in its comment.
-/

/-- Rust `str::trim`: strip Unicode whitespace from both ends. -/
def strTrim (s : String) : String :=
  String.mk (((s.toList.dropWhile Char.isWhitespace).reverse.dropWhile
    Char.isWhitespace).reverse)

/-- Rust `str::split_once(c)`: split at the first occurrence of `c`,
returning the parts before and after it (the second part may contain
further occurrences).  With `splitn(2, c)`, Rust's iterator yields exactly
these two parts, so this also models the `splitn(2, '=')` of
`parse_ffmpeg_progress_line`. -/
def splitOnceChar (c : Char) (s : String) : Option (String × String) :=
  let cs := s.toList
  if cs.contains c then
    let before := cs.takeWhile (· ≠ c)
    let after := (cs.dropWhile (· ≠ c)).drop 1
    some (String.mk before, String.mk after)
  else
    none

/-- Rust `str::lines`, restricted to `\n` separators: the text before the
first newline (the whole string if none). -/
def firstLine (s : String) : String :=
  String.mk (s.toList.takeWhile (· ≠ '\n'))

/-- Join with newlines (`Vec::join("\n")`). -/
def joinLines : List String → String
  | [] => ""
  | [x] => x
  | x :: xs => x ++ "\n" ++ joinLines xs

/-- Rust `str::starts_with(prefix)`: character-wise prefix test. -/
def strStartsWith (s pre : String) : Bool :=
  s.toList.take pre.toList.length == pre.toList

/-- Models Rust `str::parse::<i64>`: optional sign followed by one or more
digits.  (Overflow saturation is not modelled; no claim exercises values near
`i64::MAX`.) -/
def parseI64 (s : String) : Option ℤ :=
  let cs := s.toList
  let (neg, ds) :=
    match cs with
    | '-' :: rest => (true, rest)
    | '+' :: rest => (false, rest)
    | _ => (false, cs)
  if ds ≠ [] ∧ ds.all Char.isDigit then
    let n : ℤ := ds.foldl (fun a c => a * 10 + ((c.toNat : ℤ) - 48)) 0
    some (if neg then -n else n)
  else none

/-- From `parse_ffmpeg_progress_line` (`main.rs:20-26`): split at the first `=`
(`splitn(2, '=')`), trim both sides, reject when the key is empty or there is
no `=` at all. -/
def parse_ffmpeg_progress_line (line : String) : Option (String × String) :=
  match splitOnceChar '=' line with
  | none => none
  | some (k, v) =>
    let k := strTrim k
    let v := strTrim v
    if k = "" then none else some (k, v)

/-- Numeric value of a digit list (most significant first). -/
def digitsVal (cs : List Char) : ℕ :=
  cs.foldl (fun a c => a * 10 + (c.toNat - 48)) 0

/-- Models Rust `str::parse::<f64>` restricted to finite plain decimal
literals (optional sign, digits, optional fractional part) — the textual
forms `ffprobe` emits for durations and frame rates.  Exotic float syntax
(exponents, infinities, NaN) is outside the modelled subset and rejected. -/
def parseF64 (s : String) : Option ℚ :=
  let cs := s.toList
  let (neg, cs) :=
    match cs with
    | '-' :: rest => (true, rest)
    | '+' :: rest => (false, rest)
    | _ => (false, cs)
  let intPart := cs.takeWhile (· ≠ '.')
  let restPart := cs.dropWhile (· ≠ '.')
  let core : Option ℚ :=
    match restPart with
    | [] =>
      if intPart ≠ [] ∧ intPart.all (·.isDigit) then
        some ((digitsVal intPart : ℚ))
      else none
    | _ :: frac =>
      if frac.contains '.' then none
      else if (intPart ++ frac) ≠ [] ∧ intPart.all (·.isDigit) ∧ frac.all (·.isDigit) then
        some ((digitsVal intPart : ℚ) + (digitsVal frac : ℚ) / (10 : ℚ) ^ frac.length)
      else none
  core.map (fun q => if neg then -q else q)

/-- Environment for `probe_duration_and_fps` (`main.rs:28-57`): whether
`ffmpeg.parent()` exists, whether the `ffprobe` binary next to it exists, and
the stdout text of the two ffprobe invocations (`none` = the command failed
to run, Rust's `.output().ok()?`). -/
structure ProbeEnv where
  ffmpegParentOk : Bool
  ffprobeExists : Bool
  durOut : Option String
  fpsOut : Option String

/-- `probe_duration_and_fps` (`main.rs:28-57`).  Returns `none` when ffprobe
is unavailable, a command fails, the duration parse fails, or a rational
`num/den` component parse fails; a plain-float frame-rate parse failure is
absorbed by `unwrap_or(0.0)` (`main.rs:53`).  A zero denominator yields `0.0`
(`main.rs:51`; in `ℚ`, `na / 0 = 0` as well, so both branches are `na / nb`). -/
def probe_duration_and_fps (env : ProbeEnv) : Option (ℚ × ℚ) :=
  if ¬ env.ffmpegParentOk then none
  else if ¬ env.ffprobeExists then none
  else do
    let ds ← env.durOut
    let duration ← parseF64 (strTrim ds)
    let fs ← env.fpsOut
    let s := strTrim fs
    match splitOnceChar '/' s with
    | some (a, b) => do
        let na ← parseF64 a
        let nb ← parseF64 b
        pure (duration, if nb ≠ 0 then na / nb else 0)
    | none => pure (duration, (parseF64 s).getD 0)

/-! ## Filesystem snapshot model and model-path resolution -/

/-- A filesystem snapshot: path existence, directory test, and the ordered
entry names `read_dir` yields for a directory (empty on read failure). -/
structure Fs where
  pathExists : String → Bool
  isDir : String → Bool
  listing : String → List String

/-- `Path::join` on the snapshot's textual paths. -/
def joinPath (p name : String) : String := p ++ "/" ++ name

/-- `resolve_rife_model_path` (`main.rs:303-323`).  Note the first two checks
use `Path::exists` (true for files *and* directories), while the fallback scan
requires `path.is_dir()`. -/
def resolve_rife_model_path (fs : Fs) (p : String) : String :=
  if fs.pathExists (joinPath p "flownet.bin") ∨ fs.pathExists (joinPath p "model.param") then
    p
  else if fs.pathExists (joinPath p "rife-v2.3") then
    joinPath p "rife-v2.3"
  else
    match (fs.listing p).find? (fun name => fs.isDir (joinPath p name)) with
    | some name => joinPath p name
    | none => p

/-- The resolution procedure as the claim words it: a *weight file* must be a
file, the preferred `rife-v2.3` entry must be a *subfolder*; otherwise the
first subdirectory; otherwise the input unchanged. -/
def resolve_model_claimed (fs : Fs) (p : String) : String :=
  let isFile := fun q => fs.pathExists q ∧ ¬ fs.isDir q
  if isFile (joinPath p "flownet.bin") ∨ isFile (joinPath p "model.param") then
    p
  else if fs.pathExists (joinPath p "rife-v2.3") ∧ fs.isDir (joinPath p "rife-v2.3") then
    joinPath p "rife-v2.3"
  else
    match (fs.listing p).find? (fun name => fs.isDir (joinPath p name)) with
    | some name => joinPath p name
    | none => p

/-! ## RIFE working-directory / model-argument computation -/

/-- The view of a Rust `Path` that `compute_rife_cwd_and_model_arg` consults:
its parent (rendered as a string, `none` when `Path::parent` is `None`), its
final component (`Path::file_name`), and its full textual form (the lossy
rendering used for the verbatim-prefix test and the `OsString` fallback). -/
structure RPath where
  parentStr : Option String
  fileName : Option String
  pathStr : String
  deriving DecidableEq, Repr

/-- `compute_rife_cwd_and_model_arg` (`main.rs:334-366`), with the
`#[cfg(windows)]` split reified as the `windows` flag.  If the model
directory's parent equals the binary's directory, run from that directory and
pass the bare folder name; otherwise pass the absolute path — on Windows
prefixed with `\\?\` unless it already carries that prefix. -/
def compute_rife_cwd_and_model_arg (windows : Bool) (rifeBin modelPath : RPath) :
    Option String × String :=
  let rifeDir := rifeBin.parentStr
  let fallbackArg : String :=
    if windows then
      if strStartsWith modelPath.pathStr "\\\\?\\" then modelPath.pathStr
      else "\\\\?\\" ++ modelPath.pathStr
    else modelPath.pathStr
  match rifeDir, modelPath.parentStr, modelPath.fileName with
  | some dir, some mp, some name =>
    if mp = dir then (some dir, name) else (some dir, fallbackArg)
  | _, _, _ => (rifeDir, fallbackArg)

/-! ## Thread-string computation -/

/-- The thread string computed by `smooth_video` (`main.rs:864-871`):
`max_threads.unwrap_or(0)`, fixed `"2:2:2"` when non-positive, else
`clamp(1, 12)` formatted `t:t:t`. -/
def smoothThreads (maxThreads : Option Int) : String :=
  let t := maxThreads.getD 0
  if t ≤ 0 then "2:2:2"
  else
    let t := min (max t 1) 12
    toString t ++ ":" ++ toString t ++ ":" ++ toString t

/-- `get_max_threads_string` (`main.rs:96-99`): the system default concurrency
setting, `n:n:n` where `n` is `available_parallelism` (with 4 as fallback);
`n` is passed in as the environment's parallelism value. -/
def get_max_threads_string (n : ℕ) : String :=
  toString n ++ ":" ++ toString n ++ ":" ++ toString n

/-! ## Events and per-task event traces

Each Tauri command hands its long-running work to a background context.  The
events the job emits (`pipeline_log` / `pipeline_stage` / `pipeline_progress`
/ `pipeline_done`) are modelled as a trace: a list of `Event`s in the order
the task's control flow emits them.  Environment records supply the outcomes
of the external interactions (spawn results, exit statuses, stream contents,
directory counts, throttle-clock readings). -/

/-- One emitted UI event (`main.rs`: `pipeline_log`, `pipeline_stage`,
`pipeline_progress`, `pipeline_done` with the `PipelineDoneEvent` payload of
`main.rs:668-674`). -/
inductive Event where
  | log (msg : String)
  | stage (msg : String)
  | progress (pct : ℚ)
  | done (ok : Bool) (message framesDir framePattern : String)
  deriving DecidableEq, Repr

/-- Is an event the terminal `done` event? -/
def Event.isDone : Event → Bool
  | .done _ _ _ _ => true
  | _ => false

/-- Number of `done` events in a trace. -/
def doneCount (t : List Event) : ℕ := (t.filter Event.isDone).length

/-- The trace is nonempty and its last event is a `done` event. -/
def lastIsDone (t : List Event) : Prop :=
  match t.getLast? with
  | some e => e.isDone = true
  | none => False

/-- The percentage values carried by the `progress` events of a trace. -/
def progressValues (t : List Event) : List ℚ :=
  t.filterMap (fun e => match e with | .progress q => some q | _ => none)

/-- `emit_log_limited` (`main.rs:4-13`): trim, truncate to 400 characters with
an ellipsis appended, drop empty messages.  (Rust truncates at 400 *bytes*;
the claims below never exercise the truncation branch, so the character-level
model is adequate.) -/
def emit_log_limited (msg : String) : Option String :=
  let s := strTrim msg
  let s := if s.toList.length > 400 then String.mk (s.toList.take 400) ++ "…" else s
  if s = "" then none else some s

/-- The per-line log events a stage produces from a stderr stream read as
`for line in reader.lines() { trim; skip empty; emit }` (`main.rs:919-927`,
`984-997`, `1057-1065`). -/
def stderrLogs (lines : List String) : List Event :=
  ((lines.map strTrim).filter (· ≠ "")).map Event.log

/-! ### Structured `key=value` progress parsing (extract and re-encode) -/

/-- The extraction stage's `-progress pipe:1` reader loop
(`main.rs:749-769`).  Each input line is paired with the outcome of the
throttle-clock test `last_emit.elapsed().as_millis() >= 250` at that line.
`frame` is the running counter, updated from `frame=` lines via
`v.parse::<i64>().unwrap_or(frame)`.  When the throttle window is open, a
`progress` event is emitted only if `total_frames_est > 0 && frame > 0`,
carrying `((frame / total) * 100.0).min(100.0)`. -/
def extractLoop (tfe : ℤ) : List (String × Bool) → ℤ → List Event
  | [], _ => []
  | (line, thr) :: rest, frame =>
    match parse_ffmpeg_progress_line line with
    | none => extractLoop tfe rest frame
    | some (k, v) =>
      let frame := if k = "frame" then (parseI64 v).getD frame else frame
      let emitted :=
        if thr ∧ tfe > 0 ∧ frame > 0 then
          [Event.progress (min ((frame : ℚ) / (tfe : ℚ) * 100) 100)]
        else []
      emitted ++ extractLoop tfe rest frame

/-- The percentages the extraction-stage parser emits on a line stream. -/
def extractPcts (tfe : ℤ) (lines : List (String × Bool)) : List ℚ :=
  progressValues (extractLoop tfe lines 0)

/-- The re-encode stage's `-progress pipe:1` reader loop (`main.rs:1212-1232`):
trim the whole line, skip empties, `split_once('=')`, update `frame` from
`frame=` keys, and under the same throttle/positivity guard emit
`((frame / total) * 100.0).min(99.9)`. -/
def reencodeLoop (tfe : ℤ) : List (String × Bool) → ℤ → List Event
  | [], _ => []
  | (rawLine, thr) :: rest, frame =>
    if strTrim rawLine = "" then reencodeLoop tfe rest frame
    else
      match splitOnceChar '=' (strTrim rawLine) with
      | none => reencodeLoop tfe rest frame
      | some (k, v) =>
        let frame := if k = "frame" then (parseI64 v).getD frame else frame
        let emitted :=
          if thr ∧ tfe > 0 ∧ frame > 0 then
            [Event.progress (min ((frame : ℚ) / (tfe : ℚ) * 100) (999 / 10))]
          else []
        emitted ++ reencodeLoop tfe rest frame

/-- The percentages the re-encode-stage parser emits on a line stream. -/
def reencodePcts (tfe : ℤ) (lines : List (String × Bool)) : List ℚ :=
  progressValues (reencodeLoop tfe lines 0)

/-! ### Directory-polling progress (interpolation stage) -/

/-- One emission of the interpolation poll loop (`main.rs:1001-1008`):
`in_count = count_files_in_dir(frames_in).max(1)` (computed once,
`main.rs:940`), `out_count = count_files_in_dir(frames_out)`, and
`pct = 33.0 + ((out_count / (in_count * 2.0)) * 33.0).max(0.0).min(33.0)`. -/
def rifePollPct (framesInCount outCount : ℕ) : ℚ :=
  let inC : ℚ := (max framesInCount 1 : ℕ)
  33 + clampQ (((outCount : ℚ) / (inC * 2)) * 33) 0 33

/-! ## Re-encode output frame rate -/

/-- `reencode_only` frame-rate computation (`main.rs:1136-1137`):
`probe_duration_and_fps(..).unwrap_or((0.0, 30.0))`, then
`fps_out = (fps_in * 2.0).max(1.0)`. -/
def reencodeFpsOut (probeRes : Option (ℚ × ℚ)) : ℚ :=
  let fpsIn := (probeRes.getD (0, 30)).2
  max (fpsIn * 2) 1

/-! ## The `smooth_video` background task (`main.rs:890-1084`) -/

/-- External outcomes observed by the `smooth_video` background task:
spawn results (`some e` = `spawn` returned `Err(e)`), stderr stream contents,
wait outcomes (`child.wait().map(|s| s.success()).unwrap_or(false)`), the
frame count of the extraction output directory, and the sequence of output
file counts the interpolation poll loop observes. -/
structure SmoothEnv where
  extractSpawnErr : Option String
  extractStderrLines : List String
  extractWaitOk : Bool
  framesInCount : ℕ
  rifeSpawnErr : Option String
  rifeStderrLines : List String
  rifePollCounts : List ℕ
  rifeWaitOk : Bool
  encSpawnErr : Option String
  encStderrLines : List String
  encWaitOk : Bool

/-- String parameters of a `smooth_video` job that only feed log/done
payloads (lossy path renderings computed in the synchronous part). -/
structure SmoothArgs where
  ffmpegStr : String
  inputStr : String
  framesInStr : String
  framesDirStr : String
  framePatternStr : String
  rifeStr : String
  modelDirStr : String
  threadsStr : String
  outputStr : String

/-- Failure message of the interpolation stage (`main.rs:1017-1021`): the
stderr tail ring buffer keeps the last 64 trimmed nonempty lines
(`main.rs:988-995`); on failure the last 8 of them, oldest first, are joined
with newlines; if that text trims to empty, `"RIFE failed"` is used. -/
def rifeFailMsg (stderrLines : List String) : String :=
  let l := (stderrLines.map strTrim).filter (· ≠ "")
  let ring := l.drop (l.length - 64)
  let tail := joinLines (ring.drop (ring.length - 8))
  if strTrim tail = "" then "RIFE failed" else tail

/-- Event trace of the `smooth_video` background closure
(`main.rs:890-1084`), in program order.  The stderr lines of the
interpolation stage are drained by a dedicated thread that is joined before
the wait (`main.rs:1010-1013`), so its log events are placed (as one valid
serialization) before the poll-loop progress events; the `done` emissions and
their ordering relative to everything else exactly follow the source's
control paths. -/
def smooth_video_task (env : SmoothEnv) (a : SmoothArgs) : List Event :=
  let doneEv := fun ok msg => Event.done ok msg a.framesDirStr a.framePatternStr
  let pre := [Event.log ("FFmpeg: " ++ a.ffmpegStr),
              Event.log ("Input: " ++ a.inputStr),
              Event.log ("Frames in: " ++ a.framesInStr)]
  match env.extractSpawnErr with
  | some e => pre ++ [doneEv false ("FFmpeg failed to start: " ++ e)]
  | none =>
    let pre := pre ++ stderrLogs env.extractStderrLines
    if env.extractWaitOk then
      let pre := pre ++
        [Event.stage "Interpolating (RIFE)… (step 2/3)",
         Event.log ("RIFE: " ++ a.rifeStr),
         Event.log ("Model dir: " ++ a.modelDirStr),
         Event.log ("Threads (-j): " ++ a.threadsStr)]
      match env.rifeSpawnErr with
      | some e => pre ++ [doneEv false ("RIFE failed to start: " ++ e)]
      | none =>
        let pre := pre ++ stderrLogs env.rifeStderrLines ++
          env.rifePollCounts.map
            (fun c => Event.progress (rifePollPct env.framesInCount c))
        if env.rifeWaitOk then
          let pre := pre ++ [Event.stage "Encoding video… (step 3/3)"]
          match env.encSpawnErr with
          | some e => pre ++ [doneEv false ("Encode failed to start: " ++ e)]
          | none =>
            let pre := pre ++ stderrLogs env.encStderrLines
            if env.encWaitOk then
              pre ++ [Event.progress 100] ++ [doneEv true ("Done: " ++ a.outputStr)]
            else
              pre ++ [doneEv false "Encoding failed"]
        else
          pre ++ [doneEv false (rifeFailMsg env.rifeStderrLines)]
    else
      pre ++ [doneEv false "Frame extraction failed"]

/-! ## The `extract_frames` background task (`main.rs:629-661`, worker
`extract_frames_worker` at `main.rs:676-793`) -/

/-- External outcomes observed by `extract_frames_worker`: the probe result,
the ffmpeg spawn result, the `-progress` stdout lines paired with the
throttle-clock test at each line, the wait outcome (`none` = `wait` itself
returned `Err`), the captured stderr snippet, the display text of the exit
status, and the final file count of the frames directory. -/
structure ExtractEnv where
  probe : Option (ℚ × ℚ)
  spawnErr : Option String
  stdoutLines : List (String × Bool)
  waitErr : Option String
  waitOk : Bool
  statusStr : String
  stderrSnippet : String
  framesCount : ℕ

/-- `total_frames_est` (`main.rs:683-688`): `round(duration * fps)` when both
are positive, else 0.  Rust's `f64::round` rounds half away from zero, which
for the positive products here coincides with Mathlib's `round` (half up). -/
def totalFramesEst (probe : Option (ℚ × ℚ)) : ℤ :=
  let (d, f) := probe.getD (0, 0)
  if d > 0 ∧ f > 0 then round (d * f) else 0

/-- `extract_frames_worker` (`main.rs:676-793`): the events it emits in
program order, and its `Result<String, String>`.  The stderr-snippet drain
thread emits no events (`main.rs:732-746`). -/
def extract_frames_worker (env : ExtractEnv) : List Event × Except String String :=
  let tfe := totalFramesEst env.probe
  let evs := if tfe > 0 then [Event.log ("Estimated frames: " ++ toString tfe)] else []
  match env.spawnErr with
  | some e => (evs, .error ("Failed to start ffmpeg: " ++ e))
  | none =>
    let evs := evs ++ extractLoop tfe env.stdoutLines 0
    match env.waitErr with
    | some e => (evs, .error ("Failed waiting for ffmpeg: " ++ e))
    | none =>
      let evs := evs ++ if env.framesCount > 0 then [Event.progress 100] else []
      if ¬ env.waitOk then
        let snip := strTrim env.stderrSnippet
        if snip ≠ "" then
          (evs ++ (emit_log_limited ("ffmpeg error: " ++ firstLine snip)).toList.map Event.log,
           .error ("ffmpeg exited with " ++ env.statusStr ++ "\n" ++ snip))
        else
          (evs ++ (emit_log_limited ("ffmpeg exited with " ++ env.statusStr)).toList.map Event.log,
           .error ("ffmpeg exited with " ++ env.statusStr))
      else if env.framesCount = 0 then
        (evs, .error "No frames were extracted")
      else
        (evs, .ok ("Frames extracted: " ++ toString env.framesCount))

/-- The full background trace of an `extract_frames` job: the worker's events
followed by exactly one `done` event built from the worker's result
(`main.rs:629-652`). -/
def extract_frames_task (env : ExtractEnv) (framesDir framePattern : String) : List Event :=
  let (evs, res) := extract_frames_worker env
  evs ++ [match res with
          | .ok msg => Event.done true msg framesDir framePattern
          | .error e => Event.done false e framesDir framePattern]

/-! ## The `reencode_only` command (`main.rs:1094-1259`) -/

/-- A `reencode_only` request: the four command arguments. -/
structure ReencodeReq where
  videoPath : String
  outputPath : String
  framesDir : Option String
  maxThreads : Option Int

/-- External state consulted by `reencode_only`: errors of `app_root` /
`ensure_dirs`, the resolved ffmpeg binary (`preferred_ffmpeg_path().or(..)`,
`none` = no binary resolvable), existence of the trimmed input path and the
trimmed frames directory, the frames-directory file count, the probe result,
and the background-stage outcomes (spawn, stderr lines, throttled stdout
lines, wait). -/
structure ReencodeEnv where
  rootErr : Option String
  ensureErr : Option String
  ffmpeg : Option String
  inputExists : Bool
  framesDirExists : Bool
  framesCount : ℕ
  probe : Option (ℚ × ℚ)
  spawnErr : Option String
  stderrLines : List String
  stdoutLines : List (String × Bool)
  waitOk : Bool

/-- Everything the synchronous part of `reencode_only` computes and hands to
the background thread (`main.rs:1121-1152`). -/
structure ReencodeStarted where
  framesDirStr : String
  framePatternStr : String
  totalFramesEst : ℤ
  fpsOut : ℚ
  outputStr : String

/-- The synchronous part of `reencode_only` (`main.rs:1094-1152`): every
validation failure is returned as `.error` *before* the frame count, the
probe, and the background thread; on success the started payload (the
`ExtractFramesResult { ok: true, .. }` acknowledgment plus the values closed
over by the background thread) is returned. -/
def reencode_only_sync (env : ReencodeEnv) (req : ReencodeReq) : Except String ReencodeStarted :=
  match env.rootErr with
  | some e => .error e
  | none =>
  match env.ensureErr with
  | some e => .error e
  | none =>
  match env.ffmpeg with
  | none => .error "ffmpeg not installed (install ffmpeg first)"
  | some _ =>
    if ¬ env.inputExists then .error "Input video does not exist"
    else if strTrim req.outputPath = "" then .error "Output path is required"
    else
      let framesDirStr := strTrim (req.framesDir.getD "")
      if framesDirStr = "" then .error "Frames folder is required for re-encode only"
      else if ¬ env.framesDirExists then .error "Frames folder does not exist"
      else
        .ok { framesDirStr := framesDirStr
              framePatternStr := joinPath framesDirStr "%08d.png"
              totalFramesEst := (env.framesCount : ℤ)
              fpsOut := reencodeFpsOut env.probe
              outputStr := strTrim req.outputPath }

/-- Events emitted by the *main* background thread of `reencode_only` before
the child process is spawned (`main.rs:1155-1156`). -/
def reencode_only_pre : List Event :=
  [Event.progress 0, Event.log "Re-encode only: starting ffmpeg…"]

/-- Events emitted by the main background thread of `reencode_only` from the
spawn point on (`main.rs:1187-1250`): on spawn failure one `done`; otherwise
the structured-progress events, then on success `progress 100` and `done ok`,
on failure `done failed`. -/
def reencode_only_main (env : ReencodeEnv) (st : ReencodeStarted) : List Event :=
  match env.spawnErr with
  | some e => [Event.done false ("ffmpeg failed to start: " ++ e) st.framesDirStr st.framePatternStr]
  | none =>
    let evs := reencodeLoop st.totalFramesEst env.stdoutLines 0
    if env.waitOk then
      evs ++ [Event.progress 100] ++
        [Event.done true ("Done: " ++ st.outputStr) st.framesDirStr st.framePatternStr]
    else
      evs ++ [Event.done false "Re-encode failed" st.framesDirStr st.framePatternStr]

/-- Events emitted by the detached stderr-drain thread of `reencode_only`
(`main.rs:1201-1209`): one `emit_log_limited` log per stderr line.  This
thread is spawned after the child and **never joined**. -/
def reencode_only_stderr (env : ReencodeEnv) : List Event :=
  (env.stderrLines.filterMap emit_log_limited).map Event.log

/-- `w` is an interleaving of `xs` and `ys` (each kept in order): the set of
event orders two concurrent threads can produce under some scheduling. -/
inductive Interleaving : List Event → List Event → List Event → Prop
  | nil : Interleaving [] [] []
  | left {x : Event} {xs ys zs : List Event} :
      Interleaving xs ys zs → Interleaving (x :: xs) ys (x :: zs)
  | right {y : Event} {xs ys zs : List Event} :
      Interleaving xs ys zs → Interleaving xs (y :: ys) (y :: zs)

/-- The observable event sequences of a started `reencode_only` job: the
pre-spawn events followed by any interleaving of the main thread's remaining
events with the detached stderr thread's log events. -/
def reencode_only_traces (env : ReencodeEnv) (st : ReencodeStarted) : Set (List Event) :=
  {t | ∃ w, Interleaving (reencode_only_main env st) (reencode_only_stderr env) w ∧
            t = reencode_only_pre ++ w}

/-! ## Helper lemmas -/

@[simp] lemma isDone_log (m : String) : (Event.log m).isDone = false := rfl

@[simp] lemma isDone_stage (m : String) : (Event.stage m).isDone = false := rfl

@[simp] lemma isDone_progress (q : ℚ) : (Event.progress q).isDone = false := rfl

@[simp] lemma isDone_done (ok : Bool) (m fd fp : String) :
    (Event.done ok m fd fp).isDone = true := rfl

lemma doneCount_append (xs ys : List Event) :
    doneCount (xs ++ ys) = doneCount xs + doneCount ys := by
  simp [doneCount, List.filter_append]

@[simp] lemma doneCount_nil : doneCount [] = 0 := rfl

@[simp] lemma doneCount_cons (e : Event) (t : List Event) :
    doneCount (e :: t) = (if e.isDone then 1 else 0) + doneCount t := by
  by_cases h : e.isDone = true
  · simp [doneCount, List.filter_cons, h]
    omega
  · simp [doneCount, List.filter_cons, h]

lemma doneCount_ite (c : Prop) [Decidable c] (a b : List Event) :
    doneCount (if c then a else b) = if c then doneCount a else doneCount b := by
  split <;> rfl

lemma doneCount_map_log (l : List String) : doneCount (l.map Event.log) = 0 := by
  induction l with
  | nil => rfl
  | cons x xs ih => simp [ih]

lemma doneCount_stderrLogs (l : List String) : doneCount (stderrLogs l) = 0 := by
  simp [stderrLogs, doneCount_map_log]

lemma doneCount_map_progress (f : ℕ → ℚ) (l : List ℕ) :
    doneCount (l.map (fun c => Event.progress (f c))) = 0 := by
  induction l with
  | nil => rfl
  | cons x xs ih => simp [ih]

lemma doneCount_extractLoop (tfe : ℤ) (lines : List (String × Bool)) (f : ℤ) :
    doneCount (extractLoop tfe lines f) = 0 := by
  induction lines generalizing f with
  | nil => rfl
  | cons x xs ih =>
    unfold extractLoop
    rcases parse_ffmpeg_progress_line x.1 with _ | ⟨k, v⟩
    · exact ih f
    · dsimp only
      rw [doneCount_append, ih]
      split <;> split <;> simp

lemma doneCount_reencodeLoop (tfe : ℤ) (lines : List (String × Bool)) (f : ℤ) :
    doneCount (reencodeLoop tfe lines f) = 0 := by
  induction lines generalizing f with
  | nil => rfl
  | cons x xs ih =>
    unfold reencodeLoop
    split
    · exact ih f
    · rcases h : splitOnceChar '=' (strTrim x.1) with _ | ⟨k, v⟩ <;> simp only [h]
      · exact ih f
      · rw [doneCount_append, ih]
        split <;> split <;> simp

lemma lastIsDone_append (xs ys : List Event) (h : lastIsDone ys) :
    lastIsDone (xs ++ ys) := by
  unfold lastIsDone at *
  rcases hy : ys.getLast? with _ | e
  · rw [hy] at h; exact h.elim
  · have hne : ys ≠ [] := by rintro rfl; simp at hy
    rw [List.getLast?_append_of_ne_nil xs hne, hy]
    rw [hy] at h; exact h

lemma lastIsDone_single (ok : Bool) (m fd fp : String) :
    lastIsDone [Event.done ok m fd fp] := by
  simp [lastIsDone]

lemma lastIsDone_pair (e : Event) (ok : Bool) (m fd fp : String) :
    lastIsDone [e, Event.done ok m fd fp] := by
  simp [lastIsDone]

/-! ## Claims -/

/-- **C2.** Every iteration of the interpolation-stage directory-polling loop
emits `33 + clamp((out_count / (in_count * 2)) * 33, 0, 33)` (with `in_count`
the extracted-frame count floored at 1, `main.rs:940,1005`), and this value
never lies below the stage's lower band boundary 33 nor above its upper band
boundary 66, for every pair of observed file counts — including stale output
counts exceeding twice the input count. -/
theorem c2_interpolation_band (framesInCount outCount : ℕ) :
    rifePollPct framesInCount outCount =
      33 + clampQ (((outCount : ℚ) / (((max framesInCount 1 : ℕ) : ℚ) * 2)) * 33) 0 33 ∧
    33 ≤ rifePollPct framesInCount outCount ∧
    rifePollPct framesInCount outCount ≤ 66 := by
  refine ⟨rfl, ?_, ?_⟩ <;>
    · unfold rifePollPct clampQ
      have h1 : (0:ℚ) ≤ max (((outCount : ℚ) / (((max framesInCount 1 : ℕ) : ℚ) * 2)) * 33) 0 :=
        le_max_right _ _
      have h2 : min (max (((outCount : ℚ) / (((max framesInCount 1 : ℕ) : ℚ) * 2)) * 33) 0) 33 ≤ 33 :=
        min_le_right _ _
      have h3 : (0:ℚ) ≤ min (max (((outCount : ℚ) / (((max framesInCount 1 : ℕ) : ℚ) * 2)) * 33) 0) 33 :=
        le_min h1 (by norm_num)
      dsimp only
      linarith

/-- **C6 counterexample.** The claim says a thread hint of 0 yields the system
default concurrency setting (`get_max_threads_string`, i.e. `n:n:n` for system
parallelism `n`); on a system with parallelism 4 the code instead yields the
fixed `"2:2:2"`. -/
theorem c6_counterexample :
    smoothThreads (some 0) = "2:2:2" ∧ get_max_threads_string 4 = "4:4:4" ∧
    smoothThreads (some 0) ≠ get_max_threads_string 4 := by
  refine ⟨rfl, rfl, ?_⟩
  decide

/-- **C6 (amended).** A thread hint that is absent, zero, or negative yields
the fixed default `"2:2:2"` (not the system default); a positive hint `t` is
clamped to `[1, 12]` and formatted `k:k:k`; in particular a hint of 20 yields
`"12:12:12"`. -/
theorem c6_thread_clamp :
    (∀ mt : Option Int, mt.getD 0 ≤ 0 → smoothThreads mt = "2:2:2") ∧
    (∀ t : Int, 0 < t →
        smoothThreads (some t) =
          toString (min t 12) ++ ":" ++ toString (min t 12) ++ ":" ++ toString (min t 12)) ∧
    smoothThreads (some 20) = "12:12:12" := by
  refine ⟨?_, ?_, by decide⟩
  · intro mt h
    unfold smoothThreads
    simp [h]
  · intro t ht
    unfold smoothThreads
    have h1 : ¬ t ≤ 0 := by omega
    have h2 : max t 1 = t := by omega
    simp [h1, h2]

/-- **C6 witness.** The amended claim at concrete inputs 0, 5 and 20. -/
theorem c6_thread_clamp_witness :
    smoothThreads (some 0) = "2:2:2" ∧ smoothThreads (some 5) = "5:5:5" ∧
    smoothThreads (some 20) = "12:12:12" :=
  ⟨c6_thread_clamp.1 (some 0) (by decide),
   (c6_thread_clamp.2.1 5 (by decide)).trans (by decide),
   c6_thread_clamp.2.2⟩

/-- **C7.** With no frame-rate override (the command takes none), the
re-encode output frame rate is the doubled input rate floored at 1.0: a probed
rate of 24.0 yields exactly 48.0, and the result is always at least 1.0 — in
particular when probing failed (where the input rate defaults to 30.0). -/
theorem c7_fps_double (d f : ℚ) :
    reencodeFpsOut (some (d, f)) = max (f * 2) 1 ∧
    reencodeFpsOut (some (d, 24)) = 48 ∧
    1 ≤ reencodeFpsOut none ∧
    (∀ pr : Option (ℚ × ℚ), 1 ≤ reencodeFpsOut pr) := by
  refine ⟨rfl, ?_, ?_, fun pr => le_max_right _ _⟩
  · show max ((24:ℚ) * 2) 1 = 48
    norm_num
  · exact le_max_right _ _

/-- A snapshot on which the code and the claim's reading of it disagree: under
`"M"`, the entry `rife-v2.3` exists but is a plain *file*, and `alpha` is a
subdirectory. -/
def c4_fs : Fs where
  pathExists := fun q => q == "M/rife-v2.3" || q == "M/alpha"
  isDir := fun q => q == "M/alpha"
  listing := fun q => if q == "M" then ["rife-v2.3", "alpha"] else []

/-- **C4 counterexample.** The code's `rife-v2.3` check is `Path::exists`
(`main.rs:309-311`), not a directory test: on a snapshot where `rife-v2.3` is
a plain file next to a subdirectory `alpha`, the code resolves to the file
path `M/rife-v2.3`, while the claim ("containing the conventionally preferred
*subfolder* rife-v2.3 … otherwise the first subdirectory found") resolves to
`M/alpha`. -/
theorem c4_counterexample :
    resolve_rife_model_path c4_fs "M" = "M/rife-v2.3" ∧
    resolve_model_claimed c4_fs "M" = "M/alpha" ∧
    resolve_rife_model_path c4_fs "M" ≠ resolve_model_claimed c4_fs "M" := by
  refine ⟨by decide, by decide, by decide⟩

/-- **C4 (amended).** `resolve_rife_model_path` is a pure function of the
filesystem snapshot: if an entry named `flownet.bin` or `model.param` exists
directly under the path (file or directory — the code only tests existence),
it resolves to the path itself; otherwise, if an entry named `rife-v2.3`
exists (file or directory), to that entry's path; otherwise to the first
subdirectory found in listing order; otherwise to the input unchanged. -/
theorem c4_resolution (fs : Fs) (p : String) :
    (fs.pathExists (joinPath p "flownet.bin") ∨ fs.pathExists (joinPath p "model.param") →
        resolve_rife_model_path fs p = p) ∧
    (¬ (fs.pathExists (joinPath p "flownet.bin") ∨ fs.pathExists (joinPath p "model.param")) →
      fs.pathExists (joinPath p "rife-v2.3") →
        resolve_rife_model_path fs p = joinPath p "rife-v2.3") ∧
    (¬ (fs.pathExists (joinPath p "flownet.bin") ∨ fs.pathExists (joinPath p "model.param")) →
      ¬ fs.pathExists (joinPath p "rife-v2.3") →
      ∀ name, (fs.listing p).find? (fun n => fs.isDir (joinPath p n)) = some name →
        resolve_rife_model_path fs p = joinPath p name) ∧
    (¬ (fs.pathExists (joinPath p "flownet.bin") ∨ fs.pathExists (joinPath p "model.param")) →
      ¬ fs.pathExists (joinPath p "rife-v2.3") →
      (fs.listing p).find? (fun n => fs.isDir (joinPath p n)) = none →
        resolve_rife_model_path fs p = p) := by
  refine ⟨?_, ?_, ?_, ?_⟩
  · intro h
    simp [resolve_rife_model_path, h]
  · intro h1 h2
    simp [resolve_rife_model_path, h1, h2]
  · intro h1 h2 name h3
    simp [resolve_rife_model_path, h1, h2, h3]
  · intro h1 h2 h3
    simp [resolve_rife_model_path, h1, h2, h3]

/-- **C4 witness.** The amended characterization at `c4_fs` (second clause)
and at a snapshot with a weight entry (first clause). -/
theorem c4_resolution_witness :
    resolve_rife_model_path c4_fs "M" = "M/rife-v2.3" ∧
    resolve_rife_model_path
      ⟨fun q => q == "W/flownet.bin", fun _ => false, fun _ => []⟩ "W" = "W" :=
  ⟨(c4_resolution c4_fs "M").2.1 (by decide) (by decide),
   (c4_resolution ⟨fun q => q == "W/flownet.bin", fun _ => false, fun _ => []⟩ "W").1
     (by decide)⟩

/-- **C9.** The dual-path model-argument logic: when the model directory is a
direct sibling of the binary (its parent equals the binary's directory and it
has a bare folder name), the working directory is that directory and the model
argument is the bare name; in every other case the absolute model path is
passed with the binary's directory (if any) as working directory, and on
Windows the verbatim-prefix rewrite is idempotent — a path already beginning
with `\\?\` is returned unchanged (never double-prefixed), any other path gets
the prefix exactly once. -/
theorem c9_dual_path (w : Bool) (rifeBin modelPath : RPath) :
    (∀ dir name, rifeBin.parentStr = some dir → modelPath.parentStr = some dir →
        modelPath.fileName = some name →
        compute_rife_cwd_and_model_arg w rifeBin modelPath = (some dir, name)) ∧
    ((rifeBin.parentStr = none ∨ modelPath.parentStr = none ∨
      modelPath.parentStr ≠ rifeBin.parentStr ∨ modelPath.fileName = none) →
        compute_rife_cwd_and_model_arg w rifeBin modelPath =
          (rifeBin.parentStr,
           if w then
             (if strStartsWith modelPath.pathStr "\\\\?\\" then modelPath.pathStr
              else "\\\\?\\" ++ modelPath.pathStr)
           else modelPath.pathStr)) := by
  constructor
  · intro dir name h1 h2 h3
    simp [compute_rife_cwd_and_model_arg, h1, h2, h3]
  · intro h
    unfold compute_rife_cwd_and_model_arg
    rcases hr : rifeBin.parentStr with _ | dir <;>
      rcases hm : modelPath.parentStr with _ | mp <;>
      rcases hf : modelPath.fileName with _ | nm <;>
      simp_all

/-- **C9 witness.** A sibling configuration resolves to the bare name; an
already-verbatim path in the fallback case is returned unchanged on
Windows. -/
theorem c9_dual_path_witness :
    compute_rife_cwd_and_model_arg true
        ⟨some "B", some "rife-ncnn-vulkan", "B/rife-ncnn-vulkan"⟩
        ⟨some "B", some "rife-v4.6", "B/rife-v4.6"⟩ = (some "B", "rife-v4.6") ∧
    compute_rife_cwd_and_model_arg true
        ⟨some "B", some "rife-ncnn-vulkan", "B/rife-ncnn-vulkan"⟩
        ⟨none, none, "\\\\?\\C:\\models\\rife-v4.6"⟩ =
      (some "B", "\\\\?\\C:\\models\\rife-v4.6") :=
  ⟨(c9_dual_path true _ _).1 "B" "rife-v4.6" rfl rfl rfl,
   ((c9_dual_path true _ _).2 (Or.inr (Or.inl rfl))).trans (by decide)⟩

lemma reencode_only_sync_ok (env : ReencodeEnv) (req : ReencodeReq) (st : ReencodeStarted)
    (h : reencode_only_sync env req = .ok st) :
    env.rootErr = none ∧ env.ensureErr = none ∧ env.ffmpeg ≠ none ∧
    env.inputExists = true ∧ strTrim req.outputPath ≠ "" ∧
    strTrim (req.framesDir.getD "") ≠ "" ∧ env.framesDirExists = true := by
  unfold reencode_only_sync at h
  repeat' split at h <;> simp_all

/-- **C5.** Every re-encode-only request with a nonexistent frames directory,
an empty/absent frames-directory field, an empty output path, or no resolvable
ffmpeg binary is rejected with a synchronous error — structurally before the
frame count, the probe, and the background thread, which exist only behind the
`.ok` payload; conversely an accepted request passed all those checks, and the
background main thread always terminates in a `done` event (failures after
start surface only there). -/
theorem c5_sync_validation (env : ReencodeEnv) (req : ReencodeReq) :
    ((env.ffmpeg = none ∨ strTrim (req.framesDir.getD "") = "" ∨
      env.framesDirExists = false ∨ strTrim req.outputPath = "") →
        ∃ e, reencode_only_sync env req = .error e) ∧
    (∀ st, reencode_only_sync env req = .ok st →
        env.ffmpeg ≠ none ∧ env.inputExists = true ∧ strTrim req.outputPath ≠ "" ∧
        strTrim (req.framesDir.getD "") ≠ "" ∧ env.framesDirExists = true) ∧
    (∀ st, lastIsDone (reencode_only_pre ++ reencode_only_main env st)) := by
  refine ⟨?_, ?_, ?_⟩
  · intro hcond
    rcases hres : reencode_only_sync env req with e | st
    · exact ⟨e, rfl⟩
    · exfalso
      obtain ⟨_, _, hf, _, hout, hfr, hex⟩ := reencode_only_sync_ok env req st hres
      rcases hcond with h | h | h | h <;> simp_all
  · intro st h
    obtain ⟨_, _, hf, hin, hout, hfr, hex⟩ := reencode_only_sync_ok env req st h
    exact ⟨hf, hin, hout, hfr, hex⟩
  · intro st
    unfold reencode_only_main
    rcases env.spawnErr with _ | e
    · dsimp only
      split
      · exact lastIsDone_append _ _ (lastIsDone_append _ _ (lastIsDone_single _ _ _ _))
      · exact lastIsDone_append _ _ (lastIsDone_append _ _ (lastIsDone_single _ _ _ _))
    · exact lastIsDone_append _ _ (lastIsDone_single _ _ _ _)

/-- **C5 witness.** A concrete request whose frames directory does not exist
is rejected synchronously. -/
theorem c5_sync_validation_witness :
    ∃ e, reencode_only_sync
        { rootErr := none, ensureErr := none, ffmpeg := some "/usr/bin/ffmpeg",
          inputExists := true, framesDirExists := false, framesCount := 0,
          probe := none, spawnErr := none, stderrLines := [], stdoutLines := [],
          waitOk := true }
        ⟨"in.mp4", "out.mp4", some "frames", none⟩ = .error e :=
  (c5_sync_validation _ _).1 (Or.inr (Or.inr (Or.inl rfl)))

/-- **C8 counterexample.** The claim says the probe returns `None` whenever
the frame-rate parse fails in plain-float form; but with a valid duration
`"10"` and an unparseable plain-float frame-rate string `"abc"` (no `/`), the
code's `unwrap_or(0.0)` (`main.rs:53`) yields `Some((10.0, 0.0))`, not
`None`. -/
theorem c8_counterexample :
    splitOnceChar '/' (strTrim "abc") = none ∧
    parseF64 (strTrim "abc") = none ∧
    probe_duration_and_fps ⟨true, true, some "10", some "abc"⟩ = some (10, 0) ∧
    probe_duration_and_fps ⟨true, true, some "10", some "abc"⟩ ≠ none := by
  have h4 : probe_duration_and_fps ⟨true, true, some "10", some "abc"⟩ =
      some (((10:ℕ) : ℚ), 0) := rfl
  have h5 : ((10:ℕ) : ℚ) = 10 := by norm_num
  refine ⟨by decide, by decide, ?_, ?_⟩
  · rw [h4, h5]
  · rw [h4]
    exact fun h => Option.noConfusion h

/-- **C8 (amended).** `probe_duration_and_fps` returns `None` when the probing
tool is unavailable, a probe command fails, the duration parse fails, or a
rational `num/den` component parse fails; a *plain-float* frame-rate parse
failure instead yields `Some` with frame rate `0.0` (`unwrap_or(0.0)`).  When
a value is returned for a rational `a/b`, the frame rate is `a` divided by `b`
(`0.0` for a zero denominator, which in `ℚ` coincides with `a / b`). -/
theorem c8_probe_absence (env : ProbeEnv) :
    (env.ffmpegParentOk = false ∨ env.ffprobeExists = false →
        probe_duration_and_fps env = none) ∧
    (env.durOut = none → probe_duration_and_fps env = none) ∧
    (∀ ds, env.durOut = some ds → parseF64 (strTrim ds) = none →
        probe_duration_and_fps env = none) ∧
    (env.fpsOut = none → probe_duration_and_fps env = none) ∧
    (∀ ds d fs a b, env.ffmpegParentOk = true → env.ffprobeExists = true →
        env.durOut = some ds → parseF64 (strTrim ds) = some d →
        env.fpsOut = some fs → splitOnceChar '/' (strTrim fs) = some (a, b) →
        ((parseF64 a = none ∨ parseF64 b = none) → probe_duration_and_fps env = none) ∧
        (∀ na nb, parseF64 a = some na → parseF64 b = some nb →
            probe_duration_and_fps env = some (d, na / nb))) ∧
    (∀ ds d fs, env.ffmpegParentOk = true → env.ffprobeExists = true →
        env.durOut = some ds → parseF64 (strTrim ds) = some d →
        env.fpsOut = some fs → splitOnceChar '/' (strTrim fs) = none →
        probe_duration_and_fps env = some (d, (parseF64 (strTrim fs)).getD 0)) := by
  obtain ⟨pok, pex, dur, fps⟩ := env
  refine ⟨?_, ?_, ?_, ?_, ?_, ?_⟩
  · rintro (h | h) <;> subst h <;> simp [probe_duration_and_fps]
  · rintro rfl
    cases pok <;> cases pex <;> simp [probe_duration_and_fps]
  · rintro ds rfl hparse
    cases pok <;> cases pex <;> simp [probe_duration_and_fps, hparse]
  · rintro rfl
    cases pok <;> cases pex <;> simp [probe_duration_and_fps]
  · rintro ds d fs a b rfl rfl rfl hd rfl hsplit
    constructor
    · rintro (h | h) <;> simp [probe_duration_and_fps, hd, hsplit, h]
    · rintro na nb ha hb
      by_cases hz : nb = 0
      · subst hz
        simp [probe_duration_and_fps, hd, hsplit, ha, hb]
      · simp [probe_duration_and_fps, hd, hsplit, ha, hb, hz]
  · rintro ds d fs rfl rfl rfl hd rfl hsplit
    simp [probe_duration_and_fps, hd, hsplit]

/-- **C8 witness.** The amended behavior at concrete inputs: an unavailable
tool yields `None`; a rational `"24/1"` with duration `"10"` yields
`Some((10, 24))`. -/
theorem c8_probe_absence_witness :
    probe_duration_and_fps ⟨false, true, some "10", some "24"⟩ = none ∧
    probe_duration_and_fps ⟨true, true, some "10", some "24/1"⟩ =
      some (((10:ℕ) : ℚ), ((24:ℕ) : ℚ) / ((1:ℕ) : ℚ)) :=
  ⟨(c8_probe_absence _).1 (Or.inl rfl),
   ((c8_probe_absence _).2.2.2.2.1 "10" _ "24/1" "24" "1" rfl rfl rfl rfl rfl
      (by decide)).2 _ _ rfl rfl⟩

@[simp] lemma progressValues_nil : progressValues [] = [] := rfl

lemma progressValues_append (xs ys : List Event) :
    progressValues (xs ++ ys) = progressValues xs ++ progressValues ys := by
  simp [progressValues]

@[simp] lemma progressValues_cons_progress (q : ℚ) (t : List Event) :
    progressValues (Event.progress q :: t) = q :: progressValues t := by
  simp [progressValues]

lemma extractLoop_bounds (tfe : ℤ) (lines : List (String × Bool)) (f : ℤ) :
    (tfe ≤ 0 → progressValues (extractLoop tfe lines f) = []) ∧
    (∀ p ∈ progressValues (extractLoop tfe lines f), 0 < p ∧ p ≤ 100) := by
  induction lines generalizing f with
  | nil => exact ⟨fun _ => rfl, by simp [extractLoop]⟩
  | cons x xs ih =>
    unfold extractLoop
    rcases parse_ffmpeg_progress_line x.1 with _ | ⟨k, v⟩
    · exact ih f
    · dsimp only
      constructor
      · intro hle
        have hcond : ¬ (x.2 = true ∧ tfe > 0 ∧
            (if k = "frame" then (parseI64 v).getD f else f) > 0) := by
          rintro ⟨-, ht, -⟩; omega
        rw [if_neg hcond]
        simpa using (ih _).1 hle
      · intro p hp
        by_cases hcond : x.2 = true ∧ tfe > 0 ∧
            (if k = "frame" then (parseI64 v).getD f else f) > 0
        · rw [if_pos hcond, List.singleton_append, progressValues_cons_progress] at hp
          rcases List.mem_cons.1 hp with rfl | hp
          · obtain ⟨-, ht, hf⟩ := hcond
            have hT : (0:ℚ) < (tfe : ℚ) := by exact_mod_cast ht
            have hF : (0:ℚ) < ((if k = "frame" then (parseI64 v).getD f else f : ℤ) : ℚ) := by
              exact_mod_cast hf
            refine ⟨lt_min (by positivity) (by norm_num), min_le_right _ _⟩
          · exact (ih _).2 p hp
        · rw [if_neg hcond, List.nil_append] at hp
          exact (ih _).2 p hp

lemma reencodeLoop_bounds (tfe : ℤ) (lines : List (String × Bool)) (f : ℤ) :
    (tfe ≤ 0 → progressValues (reencodeLoop tfe lines f) = []) ∧
    (∀ p ∈ progressValues (reencodeLoop tfe lines f), 0 < p ∧ p ≤ 999 / 10) := by
  induction lines generalizing f with
  | nil => exact ⟨fun _ => rfl, by simp [reencodeLoop]⟩
  | cons x xs ih =>
    unfold reencodeLoop
    split
    · exact ih f
    · rcases h : splitOnceChar '=' (strTrim x.1) with _ | ⟨k, v⟩ <;> simp only [h]
      · exact ih f
      · constructor
        · intro hle
          have hcond : ¬ (x.2 = true ∧ tfe > 0 ∧
              (if k = "frame" then (parseI64 v).getD f else f) > 0) := by
            rintro ⟨-, ht, -⟩; omega
          rw [if_neg hcond]
          simpa using (ih _).1 hle
        · intro p hp
          by_cases hcond : x.2 = true ∧ tfe > 0 ∧
              (if k = "frame" then (parseI64 v).getD f else f) > 0
          · rw [if_pos hcond, List.singleton_append, progressValues_cons_progress] at hp
            rcases List.mem_cons.1 hp with rfl | hp
            · obtain ⟨-, ht, hf⟩ := hcond
              have hT : (0:ℚ) < (tfe : ℚ) := by exact_mod_cast ht
              have hF : (0:ℚ) < ((if k = "frame" then (parseI64 v).getD f else f : ℤ) : ℚ) := by
                exact_mod_cast hf
              refine ⟨lt_min (by positivity) (by norm_num), min_le_right _ _⟩
            · exact (ih _).2 p hp
          · rw [if_neg hcond, List.nil_append] at hp
            exact (ih _).2 p hp

/-- **C3 counterexample.** The claim says every emitted percentage lies in
`[0, 100)`; but the extraction stage caps at *exactly* `100.0`
(`.min(100.0)`, `main.rs:762`): on total estimate 1 and progress line
`frame=1` (throttle open) the parser emits exactly 100, which is not
`< 100`. -/
theorem c3_counterexample :
    extractPcts 1 [("frame=1", true)] = [100] ∧ ¬ ((100:ℚ) < 100) := by
  have h : extractPcts 1 [("frame=1", true)] =
      [min ((((1:ℤ)):ℚ) / (((1:ℤ)):ℚ) * 100) 100] := rfl
  constructor
  · rw [h]
    norm_num
  · norm_num

/-- **C3 (amended).** In the structured `key=value` progress parsing of the
extraction and re-encode stages, a percentage is emitted only when the
estimated total frame count and the running frame counter are both strictly
positive (so the division is never by zero, and a total of 0 or unknown emits
nothing), and every emitted percentage lies in `(0, 100]` — capped at exactly
100 for extraction and at 99.9 for re-encode. -/
theorem c3_structured_guard (tfe : ℤ) (lines : List (String × Bool)) :
    (tfe ≤ 0 → extractPcts tfe lines = [] ∧ reencodePcts tfe lines = []) ∧
    (∀ p ∈ extractPcts tfe lines, 0 < p ∧ p ≤ 100) ∧
    (∀ p ∈ reencodePcts tfe lines, 0 < p ∧ p ≤ 999 / 10) :=
  ⟨fun h => ⟨(extractLoop_bounds tfe lines 0).1 h, (reencodeLoop_bounds tfe lines 0).1 h⟩,
   (extractLoop_bounds tfe lines 0).2, (reencodeLoop_bounds tfe lines 0).2⟩

/-- **C3 witness.** With a zero total estimate nothing is emitted, even on a
`frame=` line with the throttle window open. -/
theorem c3_structured_guard_witness :
    extractPcts 0 [("frame=5", true)] = [] ∧ reencodePcts 0 [("frame=5", true)] = [] :=
  (c3_structured_guard 0 [("frame=5", true)]).1 le_rfl

/-- **C10.** The interpolation-progress denominator in the smooth pipeline is
the extracted-frame count floored at 1 (`count_files_in_dir(..).max(1)`,
`main.rs:940`), so the poll-loop division is never by zero; and when the
extraction subprocess exits successfully the pipeline proceeds to the
interpolation stage regardless of the frame count — in particular with zero
extracted frames it does not fail with a no-output error. -/
theorem c10_zero_frames_proceed (env : SmoothEnv) (a : SmoothArgs)
    (h1 : env.extractSpawnErr = none) (h2 : env.extractWaitOk = true) :
    Event.stage "Interpolating (RIFE)… (step 2/3)" ∈ smooth_video_task env a ∧
    (0:ℚ) < ((max env.framesInCount 1 : ℕ) : ℚ) * 2 := by
  constructor
  · obtain ⟨es, esl, ew, fc, rs, rsl, rpc, rw2, ns, nsl, nw⟩ := env
    dsimp only at h1 h2
    subst h1 h2
    cases rs <;> cases rw2 <;> cases ns <;> cases nw <;>
      simp [smooth_video_task, List.mem_append]
  · have h : (0:ℕ) < max env.framesInCount 1 := lt_of_lt_of_le Nat.zero_lt_one (le_max_right _ _)
    have h' : (0:ℚ) < ((max env.framesInCount 1 : ℕ) : ℚ) := by exact_mod_cast h
    linarith

/-- **C10 witness.** A job whose extraction stage succeeded with zero
extracted frames still reaches the interpolation stage, and its denominator is
positive. -/
theorem c10_zero_frames_proceed_witness :
    Event.stage "Interpolating (RIFE)… (step 2/3)" ∈
      smooth_video_task
        ⟨none, [], true, 0, none, [], [], true, none, [], true⟩
        ⟨"f", "i", "fi", "fd", "fp", "r", "m", "t", "o"⟩ ∧
    (0:ℚ) < ((max (0:ℕ) 1 : ℕ) : ℚ) * 2 :=
  c10_zero_frames_proceed ⟨none, [], true, 0, none, [], [], true, none, [], true⟩
    ⟨"f", "i", "fi", "fd", "fp", "r", "m", "t", "o"⟩ rfl rfl

lemma smooth_task_shape (env : SmoothEnv) (a : SmoothArgs) :
    ∃ pre ok msg, smooth_video_task env a =
        pre ++ [Event.done ok msg a.framesDirStr a.framePatternStr] ∧ doneCount pre = 0 := by
  obtain ⟨es, esl, ew, fc, rs, rsl, rpc, rw2, ns, nsl, nw⟩ := env
  cases es <;> cases ew <;> cases rs <;> cases rw2 <;> cases ns <;> cases nw <;>
    exact ⟨_, _, _, rfl,
      by simp [doneCount_append, doneCount_stderrLogs, doneCount_map_progress]⟩

lemma smooth_task_done (env : SmoothEnv) (a : SmoothArgs) :
    doneCount (smooth_video_task env a) = 1 ∧ lastIsDone (smooth_video_task env a) := by
  obtain ⟨pre, ok, msg, heq, hcnt⟩ := smooth_task_shape env a
  rw [heq]
  constructor
  · rw [doneCount_append, hcnt]
    rfl
  · exact lastIsDone_append _ _ (lastIsDone_single _ _ _ _)

lemma extract_worker_doneCount (env : ExtractEnv) :
    doneCount (extract_frames_worker env).1 = 0 := by
  unfold extract_frames_worker
  repeat' split
  all_goals
    simp [apply_ite, doneCount_append, doneCount_extractLoop, doneCount_ite,
          doneCount_map_log]
  all_goals
    split <;>
      simp [doneCount_append, doneCount_extractLoop, doneCount_map_log]

lemma extract_task_done (env : ExtractEnv) (fd fp : String) :
    doneCount (extract_frames_task env fd fp) = 1 ∧
    lastIsDone (extract_frames_task env fd fp) := by
  have heq : extract_frames_task env fd fp =
      (extract_frames_worker env).1 ++
        [match (extract_frames_worker env).2 with
         | .ok msg => Event.done true msg fd fp
         | .error e => Event.done false e fd fp] := rfl
  rw [heq]
  constructor
  · rw [doneCount_append, extract_worker_doneCount]
    rcases h2 : (extract_frames_worker env).2 with e | msg <;> rfl
  · rcases h2 : (extract_frames_worker env).2 with e | msg <;>
      exact lastIsDone_append _ _ (lastIsDone_single _ _ _ _)

/-- A concrete, validly started re-encode-only job: ffmpeg resolvable, input
and frames directory present, the child spawns, exits successfully, and
writes one stderr line (which the detached drain thread turns into one
`pipeline_log` event). -/
def c1_env : ReencodeEnv where
  rootErr := none
  ensureErr := none
  ffmpeg := some "/usr/bin/ffmpeg"
  inputExists := true
  framesDirExists := true
  framesCount := 2
  probe := none
  spawnErr := none
  stderrLines := ["deprecated pixel format used"]
  stdoutLines := []
  waitOk := true

/-- The request of the job `c1_env` serves. -/
def c1_req : ReencodeReq := ⟨"in.mp4", "out.mp4", some "frames", none⟩

/-- The started payload `reencode_only` computes synchronously for `c1_req`
under `c1_env`. -/
def c1_st : ReencodeStarted where
  framesDirStr := "frames"
  framePatternStr := "frames/%08d.png"
  totalFramesEst := 2
  fpsOut := reencodeFpsOut none
  outputStr := "out.mp4"

/-- An event order of that job in which the detached stderr thread is
scheduled after the main thread's `wait` and `done` emission: the `done`
event is followed by a `log` event. -/
def c1_trace : List Event :=
  reencode_only_pre ++
    [Event.progress 100,
     Event.done true "Done: out.mp4" "frames" "frames/%08d.png",
     Event.log "deprecated pixel format used"]

/-- **C1.** For `smooth_video` and `extract_frames`, every background control
path emits exactly one terminal `done` event and it is the last event of the
job.  For `reencode_only` the `done` emission is also unique on every control
path, but the stderr-drain thread (`main.rs:1201-1209`) is never joined before
the `done` emission (`main.rs:1237`, `1244`) — unlike `smooth_video`, which
joins its drain thread first (`main.rs:1010-1013`).  Hence there is a valid
thread interleaving of a successfully started, successfully finishing
re-encode job in which a `pipeline_log` event is delivered *after* the `done`
event, refuting "it is the last event of that job" for `reencode_only`. -/
theorem c1_done_once_and_last :
    (∀ env a, doneCount (smooth_video_task env a) = 1 ∧
        lastIsDone (smooth_video_task env a)) ∧
    (∀ env fd fp, doneCount (extract_frames_task env fd fp) = 1 ∧
        lastIsDone (extract_frames_task env fd fp)) ∧
    reencode_only_sync c1_env c1_req = .ok c1_st ∧
    c1_trace ∈ reencode_only_traces c1_env c1_st ∧
    doneCount c1_trace = 1 ∧ ¬ lastIsDone c1_trace := by
  refine ⟨smooth_task_done, extract_task_done, rfl, ?_, rfl, ?_⟩
  · refine ⟨[Event.progress 100,
             Event.done true "Done: out.mp4" "frames" "frames/%08d.png",
             Event.log "deprecated pixel format used"], ?_, rfl⟩
    exact .left (.left (.right .nil))
  · exact fun h => Bool.noConfusion h

end RIFE
